import Mathlib

/-!
Shallow embedding of the attractor simulation core of
`strange-attractor-visualiser` (`attractors.py` and the core transforms of
`plot.py`).  Real-valued quantities are modelled over `ℚ`; the external
SciPy solver `odeint` is modelled per its contract (one output state per
requested grid point, starting from the initial state) with explicit grid
stepping standing in for the adaptive integrator.
-/

namespace Attractors

/-- A state of the three-dimensional system: the `x_var` triple `(x, y, z)`. -/
abbrev State := ℚ × ℚ × ℚ

/-- Source dataclass `AttractorParam` of `attractors.py`:
`name, default, min_val, max_val, step`. -/
structure AttractorParam where
  name : String
  default : ℚ
  min_val : ℚ
  max_val : ℚ
  step : ℚ
  deriving DecidableEq, Repr

/-- Source dataclass `AttractorConfig` of `attractors.py`:
`name, equation, params, initial_conditions, time_defaults`.
The Python `time_defaults` dict `{"t_min": _, "t_max": _, "n": _}` is
modelled by the three fields `t_min`, `t_max`, `n`.  The equation takes the
state, the time and the positional parameter tuple (`*args`) as a list. -/
structure AttractorConfig where
  name : String
  equation : State → ℚ → List ℚ → State
  params : List AttractorParam
  initial_conditions : State
  t_min : ℚ
  t_max : ℚ
  n : ℕ

/-- Source function `lorenz(x_var, t, sigma, rho, beta)`. -/
def lorenz (x_var : State) (t : ℚ) (sigma rho beta : ℚ) : State :=
  match x_var with
  | (x, y, z) => (sigma * (y - x), x * (rho - z) - y, x * y - beta * z)

/-- Source constant `lorenz_attractor`.  The `_ => (0, 0, 0)` branch models
the Python `TypeError` on a wrong-arity argument tuple; it is never reached
because `params` has exactly three entries. -/
def lorenz_attractor : AttractorConfig :=
  ⟨"lorenz",
   fun s t args =>
     match args with
     | [sigma, rho, beta] => lorenz s t sigma rho beta
     | _ => (0, 0, 0),
   [⟨"sigma", 10, 0, 50, mkRat 1 10⟩,
    ⟨"rho", 28, 0, 50, mkRat 1 10⟩,
    ⟨"beta", mkRat 267 100, 0, 50, mkRat 1 10⟩],
   (0, mkRat 3 2, 15),
   0, 50, 10000⟩

/-- Source function `rossler(x_var, t, a, b, c)`. -/
def rossler (x_var : State) (t : ℚ) (a b c : ℚ) : State :=
  match x_var with
  | (x, y, z) => (-y - z, x + (a * y), b + z * (x - c))

/-- Source constant `rossler_attractor`. -/
def rossler_attractor : AttractorConfig :=
  ⟨"Rossler attractor",
   fun s t args =>
     match args with
     | [a, b, c] => rossler s t a b c
     | _ => (0, 0, 0),
   [⟨"a", mkRat 1 5, 0, 1, mkRat 1 100⟩,
    ⟨"b", mkRat 1 5, 0, 1, mkRat 1 100⟩,
    ⟨"c", mkRat 57 10, 0, 20, mkRat 1 100⟩],
   (1, 1, 1),
   0, 100, 10000⟩

/-- Source function `dadras(x_var, t, a, b, c, d, e)`. -/
def dadras (x_var : State) (t : ℚ) (a b c d e : ℚ) : State :=
  match x_var with
  | (x, y, z) => (y - a * x + b * y * z, c * y - x * z + z, d * x * y - e * z)

/-- Source constant `dadras_attractor`. -/
def dadras_attractor : AttractorConfig :=
  ⟨"Dadras attractor",
   fun s t args =>
     match args with
     | [a, b, c, d, e] => dadras s t a b c d e
     | _ => (0, 0, 0),
   [⟨"a", 3, -10, 10, mkRat 1 10⟩,
    ⟨"b", mkRat 27 10, -10, 10, mkRat 1 10⟩,
    ⟨"c", mkRat 17 10, -10, 10, mkRat 1 10⟩,
    ⟨"d", 2, -10, 10, mkRat 1 10⟩,
    ⟨"e", 9, -10, 10, mkRat 1 10⟩],
   (mkRat 11 10, mkRat 21 10, -2),
   0, 75, 10000⟩

/-- Source registry dict `ATTRACTORS` of `attractors.py`, as an ordered
association list (Python dicts preserve insertion order). -/
def ATTRACTORS : List (String × AttractorConfig) :=
  [("Lorenz", lorenz_attractor),
   ("Rossler", rossler_attractor),
   ("Dadras", dadras_attractor)]

/-- Catalog lookup `ATTRACTORS[name]`.  A missing key raises `KeyError` in
Python (the spec's `UnknownAttractorError`); that failure is modelled as
`none`. -/
def get_definition (name : String) : Option AttractorConfig :=
  ATTRACTORS.lookup name

/-- Source function `get_default_params(config)`: the dict
`{p.name: p.default for p in config.params}`, as an association list. -/
def get_default_params (config : AttractorConfig) : List (String × ℚ) :=
  config.params.map fun p => (p.name, p.default)

/-- NumPy `np.linspace(a, b, n)`: `n` evenly spaced points from `a` to `b`
inclusive.  For `n = 1` NumPy returns `[a]`, matched here because `ℚ`
division by zero is zero. -/
def linspace (a b : ℚ) (n : ℕ) : List ℚ :=
  (List.range n).map fun i : ℕ => a + (b - a) * (i : ℚ) / ((n : ℚ) - 1)

/-- Grid stepping loop for the solver model: one output state per time
point, starting from the state at the first point. -/
def odeintGo (f : State → ℚ → List ℚ → State) (args : List ℚ) :
    State → ℚ → List ℚ → List State
  | y, _, [] => [y]
  | y, t0, t1 :: ts =>
      let d := f y t0 args
      y :: odeintGo f args (y.1 + (t1 - t0) * d.1, y.2.1 + (t1 - t0) * d.2.1,
        y.2.2 + (t1 - t0) * d.2.2) t1 ts

/-- Model of SciPy `odeint(func, y0, t, args)`: an external black-box solver
whose contract is to return exactly one state per entry of `t`, the first
being `y0`.  The adaptive integrator is modelled by explicit grid steps;
the claims below depend only on the contract, not on the step rule. -/
def odeint (f : State → ℚ → List ℚ → State) (y0 : State) (t : List ℚ)
    (args : List ℚ) : List State :=
  match t with
  | [] => []
  | t0 :: rest => odeintGo f args y0 t0 rest

/-- The tuple comprehension `tuple(param_values[p.name] for p in
config.params)` of `solve_attractor`; a missing name raises `KeyError` in
Python, modelled as `none`. -/
def lookupArgs (params : List AttractorParam) (param_values : List (String × ℚ)) :
    Option (List ℚ) :=
  match params with
  | [] => some []
  | p :: rest =>
      match param_values.lookup p.name with
      | some v => (lookupArgs rest param_values).map fun args => v :: args
      | none => none

/-- Source function `solve_attractor(config, param_values)` of
`attractors.py`: build the time grid, bind the parameters positionally and
integrate from the initial conditions. -/
def solve_attractor (config : AttractorConfig) (param_values : List (String × ℚ)) :
    Option (List State) :=
  let t := linspace config.t_min config.t_max config.n
  (lookupArgs config.params param_values).map fun args =>
    odeint config.equation config.initial_conditions t args

/-- Failures of the spec's parameter resolver. -/
inductive ParameterError where
  | rangeError (name : String) (value : ℚ)
  | unknownParameterError (name : String)
  deriving DecidableEq, Repr

/-- Modelled from the spec: the Parameter Resolver
(`resolve(definition, overrides)`) is not a function of the repository —
the repository resolves parameters in its UI layer (slider widgets that
default to `spec.default` and clamp to `[min_val, max_val]`).  Per the
spec: each parameter takes `overrides[name]` if present else `spec.default`;
fails with `ParameterRangeError` if a supplied override lies outside
`[min, max]` (boundary values accepted); fails with `UnknownParameterError`
if `overrides` contains a name not in the schema; returns the parameters in
schema order.  `outOfRange` decides whether a supplied override for
parameter `p` lies strictly outside `[min_val, max_val]`, and `unknownName`
decides whether an override entry names no schema parameter. -/
def outOfRange (overrides : List (String × ℚ)) (p : AttractorParam) : Bool :=
  ((overrides.lookup p.name).map fun v =>
    decide (v < p.min_val) || decide (p.max_val < v)).getD false

def unknownName (defn : AttractorConfig) (nv : String × ℚ) : Bool :=
  !(defn.params.any fun p => p.name == nv.1)

def resolve (defn : AttractorConfig) (overrides : List (String × ℚ)) :
    Except ParameterError (List (String × ℚ)) :=
  match defn.params.find? (outOfRange overrides) with
  | some p =>
      Except.error (ParameterError.rangeError p.name
        ((overrides.lookup p.name).getD p.default))
  | none =>
      match overrides.find? (unknownName defn) with
      | some nv => Except.error (ParameterError.unknownParameterError nv.1)
      | none =>
          Except.ok (defn.params.map fun p =>
            (p.name, (overrides.lookup p.name).getD p.default))

/-- The spec's external interface `simulate(definition, overrides)`:
resolve the overrides against the schema, then run the source integrator
`solve_attractor` on the resolved parameters. -/
def simulate (defn : AttractorConfig) (overrides : List (String × ℚ)) :
    Except ParameterError (Option (List State)) :=
  (resolve defn overrides).map fun resolved => solve_attractor defn resolved

/-- Python `range(start, stop, st)` for a positive step `st`. -/
def pyRange (start stop st : ℕ) : List ℕ :=
  (List.range ((stop - start + st - 1) / st)).map fun k => start + st * k

/-- The animate branch of `plot_attractor` in `plot.py`:
`step = max(1, len(x) // 300)` and one frame `x[:i]` per
`i in range(step, len(x), step)`, generalised over the literal `300`
(the spec's `max_frames`). -/
def make_frames {α : Type} (traj : List α) (max_frames : ℕ) : List (List α) :=
  let step := max 1 (traj.length / max_frames)
  (pyRange step traj.length step).map fun i => traj.take i

/-- The `(x, y)` projection `np.vstack([x, y])` of a trajectory. -/
def project_xy (traj : List State) : List (ℚ × ℚ) :=
  traj.map fun s => (s.1, s.2.1)

/-- The fitting subsample `x[indices], y[indices]` of the density branch of
`plot_attractor`; the randomly drawn index array `indices` is an input from
the environment (`np.random.choice(n, sample_size, replace=False)`). -/
def density_fit_sample (indices : List ℕ) (traj : List State) : List (ℚ × ℚ) :=
  indices.map fun i => (project_xy traj).getD i (0, 0)

/-- Model of `scipy.stats.gaussian_kde`: fitting on `sample` and evaluating
at `pts` yields one scalar per evaluation point, a kernel sum over the
fitted sample.  The kernel itself is external and kept abstract. -/
def kde_eval (kernel : (ℚ × ℚ) → (ℚ × ℚ) → ℚ) (sample : List (ℚ × ℚ))
    (pts : List (ℚ × ℚ)) : List ℚ :=
  pts.map fun q => (sample.map fun s => kernel s q).sum

/-- The density branch of `plot_attractor` in `plot.py`
(the spec's `estimate_density`): fit the kernel density model on the
subsample of the `(x, y)` projection, then evaluate it at every point of
the full trajectory (`density = kde(np.vstack([x, y]))`). -/
def estimate_density (kernel : (ℚ × ℚ) → (ℚ × ℚ) → ℚ) (indices : List ℕ)
    (traj : List State) : List ℚ :=
  kde_eval kernel (density_fit_sample indices traj) (project_xy traj)

lemma length_pyRange (start stop st : ℕ) :
    (pyRange start stop st).length = (stop - start + st - 1) / st := by
  simp [pyRange]

/-- For a positive step the Python range count `(stop - start + st - 1) / st`
with `start = st` is `(stop - 1) / st`. -/
lemma pyRange_count_eq (stop st : ℕ) (hst : 1 ≤ st) :
    (stop - st + st - 1) / st = (stop - 1) / st := by
  rcases le_or_lt st stop with h | h
  · congr 1
    omega
  · rw [Nat.div_eq_of_lt (by omega), Nat.div_eq_of_lt (by omega)]

/-- The number of frames the animate branch emits. -/
lemma length_make_frames {α : Type} (traj : List α) (M : ℕ) :
    (make_frames traj M).length =
      (traj.length - 1) / max 1 (traj.length / M) := by
  simp only [make_frames, List.length_map, length_pyRange]
  exact pyRange_count_eq traj.length (max 1 (traj.length / M)) (le_max_left 1 _)

lemma pyRange_get? (start stop st i : ℕ) (h : i < (stop - start + st - 1) / st) :
    (pyRange start stop st).get? i = some (start + st * i) := by
  rw [pyRange, List.get?_map, List.get?_range h]
  rfl

/-- The `i`-th frame (zero-based) is the prefix of length `st * (i + 1)`
where `st = max 1 (len / max_frames)`. -/
lemma make_frames_get? {α : Type} (traj : List α) (M i : ℕ)
    (h : i < (traj.length - 1) / max 1 (traj.length / M)) :
    (make_frames traj M).get? i =
      some (traj.take ((max 1 (traj.length / M)) * (i + 1))) := by
  have hst : 1 ≤ max 1 (traj.length / M) := le_max_left 1 _
  have hcnt := pyRange_count_eq traj.length (max 1 (traj.length / M)) hst
  simp only [make_frames, List.get?_map]
  rw [pyRange_get? _ _ _ _ (by rw [hcnt]; exact h)]
  simp [Nat.mul_succ, Nat.add_comm]

/-- Claim C2 (amended): with `step = max(1, len // max_frames)` the animate
branch emits `⌊(len − 1) / step⌋` frames; this can exceed `max_frames`
(it is 303 for the default `len = 10000`, `max_frames = 300`) but never
exceeds `2·max_frames − 2`. -/
theorem make_frames_count {α : Type} (traj : List α) (M : ℕ) (hM : 1 ≤ M) :
    (make_frames traj M).length =
      (traj.length - 1) / max 1 (traj.length / M) ∧
    (make_frames traj M).length ≤ 2 * M - 2 := by
  have key : ∀ Mv q r : ℕ, 1 ≤ Mv → 1 ≤ q → r < Mv →
      (Mv * q + r - 1) / q ≤ 2 * Mv - 2 := by
    intro Mv q r hMv hq1 hr
    by_cases hMv1 : Mv = 1
    · subst hMv1
      have hr0 : r = 0 := by omega
      subst hr0
      simp only [Nat.one_mul, Nat.add_zero]
      rw [Nat.div_eq_of_lt (by omega)]
    · have h1 : Mv * q + r - 1 ≤ q * Mv + (Mv - 2) := by
        have hc : Mv * q = q * Mv := Nat.mul_comm Mv q
        omega
      calc (Mv * q + r - 1) / q ≤ (q * Mv + (Mv - 2)) / q :=
            Nat.div_le_div_right h1
        _ = Mv + (Mv - 2) / q := Nat.mul_add_div hq1 Mv (Mv - 2)
        _ ≤ 2 * Mv - 2 := by
            have h2 := Nat.div_le_self (Mv - 2) q
            omega
  refine ⟨length_make_frames traj M, ?_⟩
  rw [length_make_frames traj M]
  rcases Nat.eq_zero_or_pos (traj.length / M) with hq | hq
  · have hLM : traj.length < M := (Nat.div_eq_zero_iff (by omega)).mp hq
    rw [hq]
    norm_num
    omega
  · have hmod : M * (traj.length / M) + traj.length % M = traj.length :=
      Nat.div_add_mod _ M
    have hr : traj.length % M < M := Nat.mod_lt _ (by omega)
    rw [Nat.max_eq_right hq]
    nth_rewrite 1 [← hmod]
    exact key M (traj.length / M) (traj.length % M) hM hq hr

/-- Witness for C2 (amended) at a trajectory of length 5 with
`max_frames = 3`: 4 frames are emitted and `4 ≤ 2·3 − 2`. -/
theorem make_frames_count_witness :
    (make_frames (List.replicate 5 ()) 3).length = (5 - 1) / max 1 (5 / 3) ∧
    (make_frames (List.replicate 5 ()) 3).length ≤ 2 * 3 - 2 := by
  have h := make_frames_count (List.replicate 5 ()) 3 (by decide)
  simpa using h

/-- Counterexample for C2 as stated: at the built-in trajectory length
10000 with the default `max_frames = 300`, the code emits 303 frames,
which exceeds 300. -/
theorem make_frames_default_exceeds_300 :
    (make_frames (List.replicate 10000 ()) 300).length = 303 ∧
    ¬ (make_frames (List.replicate 10000 ()) 300).length ≤ 300 := by
  have h := length_make_frames (List.replicate 10000 ()) 300
  rw [List.length_replicate] at h
  norm_num at h
  exact ⟨h, by omega⟩

/-- Claim C3 (amended): whenever `step < len(trajectory)` (so at least one
frame is emitted), the final frame is the prefix of length
`step · ⌊(len − 1)/step⌋`, which is strictly less than `len`: the last
emitted prefix is never the whole trajectory. -/
theorem make_frames_final_frame {α : Type} (traj : List α) (M : ℕ)
    (h : max 1 (traj.length / M) < traj.length) :
    (make_frames traj M).getLast? =
      some (traj.take ((max 1 (traj.length / M)) *
        ((traj.length - 1) / (max 1 (traj.length / M))))) ∧
    (max 1 (traj.length / M)) *
        ((traj.length - 1) / (max 1 (traj.length / M))) < traj.length := by
  set st := max 1 (traj.length / M) with hstdef
  set L := traj.length with hL
  have hst : 1 ≤ st := le_max_left 1 _
  have hcnt := pyRange_count_eq L st hst
  have hone : 1 ≤ (L - 1) / st := (Nat.one_le_div_iff (by omega)).mpr (by omega)
  obtain ⟨c, hc⟩ : ∃ c, (L - 1) / st = c + 1 :=
    ⟨(L - 1) / st - 1, by omega⟩
  have hmul : st + st * c = st * ((L - 1) / st) := by
    rw [hc, Nat.mul_succ, Nat.add_comm]
  have hlt : st * ((L - 1) / st) < L := by
    have hd : (L - 1) / st * st ≤ L - 1 := Nat.div_mul_le_self (L - 1) st
    rw [Nat.mul_comm]
    omega
  constructor
  · simp only [make_frames, ← hstdef, ← hL, pyRange, hcnt, hc, List.range_succ,
      List.map_append, List.getLast?_append, List.map_cons, List.map_nil,
      List.getLast?_singleton, Option.or_some]
    rw [← hc, hmul]
  · exact hlt

/-- Witness for C3 (amended) at a trajectory of length 10 with
`max_frames = 3`: `step = 3` and the final frame is the prefix of
length 9, strictly shorter than the trajectory. -/
theorem make_frames_final_frame_witness :
    (make_frames (List.replicate 10 ()) 3).getLast? =
      some ((List.replicate 10 ()).take ((max 1 ((List.replicate 10 ()).length / 3)) *
        (((List.replicate 10 ()).length - 1) /
          (max 1 ((List.replicate 10 ()).length / 3))))) ∧
    (max 1 ((List.replicate 10 ()).length / 3)) *
        (((List.replicate 10 ()).length - 1) /
          (max 1 ((List.replicate 10 ()).length / 3))) <
      (List.replicate 10 ()).length :=
  make_frames_final_frame (List.replicate 10 ()) 3 (by decide)

/-- Counterexample for C3 as stated: for the non-empty trajectory of
length 10 (default `max_frames = 300`), the final frame has length 9,
not 10. -/
theorem make_frames_final_frame_not_whole :
    ((make_frames (List.replicate 10 ()) 300).getLast?).map List.length =
      some 9 ∧ (9 : ℕ) ≠ (List.replicate 10 ()).length := by
  decide

/-- Claim C4: the frame sequence is strictly monotone — every frame is a
prefix of the trajectory, and each frame after the first strictly extends
(is strictly longer than, and agrees on the shared prefix with) the
previous frame. -/
theorem make_frames_monotone {α : Type} (traj : List α) (M : ℕ) :
    (∀ f ∈ make_frames traj M, f <+: traj) ∧
    (∀ i f g, (make_frames traj M).get? i = some f →
      (make_frames traj M).get? (i + 1) = some g →
      f <+: g ∧ f.length < g.length) := by
  set st := max 1 (traj.length / M) with hstdef
  have hst : 1 ≤ st := le_max_left 1 _
  constructor
  · intro f hf
    simp only [make_frames, List.mem_map] at hf
    obtain ⟨k, -, rfl⟩ := hf
    exact List.take_prefix k traj
  · intro i f g hf hg
    have hlen := length_make_frames traj M
    have hicnt : i + 1 < (traj.length - 1) / st := by
      by_contra hcon
      have : (make_frames traj M).get? (i + 1) = none :=
        List.get?_eq_none.mpr (by rw [hlen, ← hstdef]; omega)
      rw [this] at hg
      exact Option.noConfusion hg
    have hf' := make_frames_get? traj M i (by rw [← hstdef]; omega)
    have hg' := make_frames_get? traj M (i + 1) (by rw [← hstdef]; omega)
    rw [← hstdef] at hf' hg'
    rw [hf'] at hf
    rw [hg'] at hg
    obtain rfl : f = traj.take (st * (i + 1)) := (Option.some_injective _ hf).symm
    obtain rfl : g = traj.take (st * (i + 2)) := (Option.some_injective _ hg).symm
    have hmono : st * (i + 1) < st * (i + 2) :=
      (Nat.mul_lt_mul_left (by omega)).mpr (by omega)
    have hbound : st * (i + 2) < traj.length := by
      have h1 : i + 2 ≤ (traj.length - 1) / st := by omega
      have h2 : st * (i + 2) ≤ st * ((traj.length - 1) / st) :=
        Nat.mul_le_mul_left st h1
      have h3 : (traj.length - 1) / st * st ≤ traj.length - 1 :=
        Nat.div_mul_le_self (traj.length - 1) st
      have h4 : st * ((traj.length - 1) / st) = (traj.length - 1) / st * st :=
        Nat.mul_comm _ _
      have h5 : 1 ≤ traj.length := by
        by_contra hcon
        have : traj.length = 0 := by omega
        rw [this] at h1
        simp at h1
      omega
    constructor
    · have heq : traj.take (st * (i + 1)) =
          (traj.take (st * (i + 2))).take (st * (i + 1)) := by
        rw [List.take_take, Nat.min_eq_left (le_of_lt hmono)]
      rw [heq]
      exact List.take_prefix _ _
    · rw [List.length_take, List.length_take]
      omega

/-- Witness for C4: for the length-5 trajectory with `max_frames = 2` the
frames are the prefixes of lengths 2 and 4; the first is a prefix of the
trajectory and the second strictly extends the first. -/
theorem make_frames_monotone_witness :
    ([(), ()] <+: List.replicate 5 ()) ∧
    ([(), ()] <+: [(), (), (), ()] ∧
      ([(), ()] : List Unit).length < ([(), (), (), ()] : List Unit).length) :=
  ⟨(make_frames_monotone (List.replicate 5 ()) 2).1 [(), ()] (by decide),
   (make_frames_monotone (List.replicate 5 ()) 2).2 0 [(), ()] [(), (), (), ()]
     (by decide) (by decide)⟩

/-- Claim C9: the built-in Lorenz catalog entry matches the spec exactly —
equation `(sigma*(y-x), x*(rho-z)-y, x*y-beta*z)`, defaults
`sigma=10, rho=28, beta=2.67`, initial state `(0, 1.5, 15)`, time domain
`t` from `0` to `50` with `10000` samples. -/
theorem lorenz_catalog_matches_spec :
    (∀ x y z t sigma rho beta : ℚ,
      lorenz (x, y, z) t sigma rho beta =
        (sigma * (y - x), x * (rho - z) - y, x * y - beta * z)) ∧
    (∀ x y z t sigma rho beta : ℚ,
      lorenz_attractor.equation (x, y, z) t [sigma, rho, beta] =
        (sigma * (y - x), x * (rho - z) - y, x * y - beta * z)) ∧
    lorenz_attractor.params.map (fun p => (p.name, p.default)) =
      [("sigma", 10), ("rho", 28), ("beta", 2.67)] ∧
    lorenz_attractor.initial_conditions = (0, 1.5, 15) ∧
    lorenz_attractor.t_min = 0 ∧ lorenz_attractor.t_max = 50 ∧
    lorenz_attractor.n = 10000 :=
  ⟨fun _ _ _ _ _ _ _ => rfl, fun _ _ _ _ _ _ _ => rfl,
   by norm_num [lorenz_attractor], by norm_num [lorenz_attractor], rfl, rfl, rfl⟩

/-- Claim C10: the registry keys (`"Lorenz"`, `"Rossler"`, `"Dadras"`) are
not the stored definitions' own `name` fields (`"lorenz"`,
`"Rossler attractor"`, `"Dadras attractor"`), and lookup succeeds only by
registry key, never by the `name` field. -/
theorem catalog_keys_differ_from_names :
    ATTRACTORS.map Prod.fst = ["Lorenz", "Rossler", "Dadras"] ∧
    lorenz_attractor.name = "lorenz" ∧
    rossler_attractor.name = "Rossler attractor" ∧
    dadras_attractor.name = "Dadras attractor" ∧
    ("Lorenz" : String) ≠ "lorenz" ∧
    ("Rossler" : String) ≠ "Rossler attractor" ∧
    ("Dadras" : String) ≠ "Dadras attractor" ∧
    get_definition "lorenz" = none ∧
    get_definition "Rossler attractor" = none ∧
    get_definition "Dadras attractor" = none ∧
    get_definition "Lorenz" = some lorenz_attractor ∧
    get_definition "Rossler" = some rossler_attractor ∧
    get_definition "Dadras" = some dadras_attractor :=
  ⟨rfl, rfl, rfl, rfl, by decide, by decide, by decide,
   rfl, rfl, rfl, rfl, rfl, rfl⟩

/-- Claim C7: `get_definition` returns the stored definition for each
registered key and fails (`UnknownAttractorError`, modelled as `none`) for
every other name. -/
theorem get_definition_total_or_unknown (name : String) :
    (name = "Lorenz" → get_definition name = some lorenz_attractor) ∧
    (name = "Rossler" → get_definition name = some rossler_attractor) ∧
    (name = "Dadras" → get_definition name = some dadras_attractor) ∧
    (name ∉ (["Lorenz", "Rossler", "Dadras"] : List String) →
      get_definition name = none) := by
  refine ⟨fun h => by subst h; rfl, fun h => by subst h; rfl,
    fun h => by subst h; rfl, fun h => ?_⟩
  simp only [List.mem_cons, not_or] at h
  obtain ⟨h1, h2, h3, -⟩ := h
  have b1 : (name == "Lorenz") = false := beq_eq_false_iff_ne.mpr h1
  have b2 : (name == "Rossler") = false := beq_eq_false_iff_ne.mpr h2
  have b3 : (name == "Dadras") = false := beq_eq_false_iff_ne.mpr h3
  simp [get_definition, ATTRACTORS, List.lookup, b1, b2, b3]

/-- Witness for C7: the registered key `"Lorenz"` resolves to the stored
definition and the unregistered name `"Nonexistent"` fails. -/
theorem get_definition_total_or_unknown_witness :
    get_definition "Nonexistent" = none ∧
    get_definition "Lorenz" = some lorenz_attractor :=
  ⟨(get_definition_total_or_unknown "Nonexistent").2.2.2 (by decide),
   (get_definition_total_or_unknown "Lorenz").1 rfl⟩

lemma lookup_map_name (f : AttractorParam → ℚ) :
    ∀ (ps : List AttractorParam), (ps.map AttractorParam.name).Nodup →
      ∀ p ∈ ps, (ps.map fun q => (q.name, f q)).lookup p.name = some (f p) := by
  intro ps
  induction ps with
  | nil => intro _ p hp; exact absurd hp (List.not_mem_nil p)
  | cons q rest ih =>
    intro hnd p hp
    rw [List.map_cons, List.lookup_cons]
    rcases List.mem_cons.mp hp with rfl | hp'
    · simp
    · have hqnotin : q.name ∉ rest.map AttractorParam.name :=
        (List.nodup_cons.mp (by simpa using hnd)).1
      have hne : (p.name == q.name) = false := by
        apply beq_eq_false_iff_ne.mpr
        intro hEq
        exact hqnotin (hEq ▸ List.mem_map_of_mem AttractorParam.name hp')
      simp only [hne]
      have hnd2 : (rest.map AttractorParam.name).Nodup :=
        (List.nodup_cons.mp (by simpa using hnd)).2
      exact ih hnd2 p hp'

lemma lookup_map_name_isSome (f : AttractorParam → ℚ) :
    ∀ (ps : List AttractorParam), ∀ p ∈ ps,
      ((ps.map fun q => (q.name, f q)).lookup p.name).isSome := by
  intro ps
  induction ps with
  | nil => intro p hp; exact absurd hp (List.not_mem_nil p)
  | cons q rest ih =>
    intro p hp
    rw [List.map_cons, List.lookup_cons]
    cases hb : p.name == q.name
    · rcases List.mem_cons.mp hp with rfl | hp'
      · simp at hb
      · exact ih p hp'
    · simp

lemma mem_of_lookup_eq_some {l : List (String × ℚ)} {a : String} {b : ℚ}
    (h : l.lookup a = some b) : (a, b) ∈ l := by
  induction l with
  | nil => simp [List.lookup] at h
  | cons kv rest ih =>
    obtain ⟨k, v⟩ := kv
    rw [List.lookup_cons] at h
    cases hb : a == k
    · rw [hb] at h
      exact List.mem_cons_of_mem _ (ih h)
    · rw [hb] at h
      obtain rfl : v = b := Option.some_injective _ h
      obtain rfl : a = k := eq_of_beq hb
      exact List.mem_cons_self _ _

/-- Resolving with no overrides keeps every default. -/
lemma resolve_nil (cfg : AttractorConfig) :
    resolve cfg [] = Except.ok (cfg.params.map fun p => (p.name, p.default)) := by
  have h1 : cfg.params.find? (outOfRange []) = none :=
    List.find?_eq_none.mpr fun p _ => by simp [outOfRange]
  rw [resolve, h1]
  simp

/-- An override strictly out of bounds is exactly what `outOfRange` finds. -/
lemma outOfRange_iff (overrides : List (String × ℚ)) (p : AttractorParam) :
    outOfRange overrides p = true ↔
      ∃ v, overrides.lookup p.name = some v ∧
        (v < p.min_val ∨ p.max_val < v) := by
  cases hl : overrides.lookup p.name with
  | none => simp [outOfRange, hl]
  | some v => simp [outOfRange, hl]

lemma find?_outOfRange_defaults (cfg : AttractorConfig)
    (hnd : (cfg.params.map AttractorParam.name).Nodup)
    (hrange : ∀ p ∈ cfg.params, p.min_val ≤ p.default ∧ p.default ≤ p.max_val) :
    cfg.params.find? (outOfRange (get_default_params cfg)) = none := by
  apply List.find?_eq_none.mpr
  intro p hp
  have hl : (get_default_params cfg).lookup p.name = some p.default :=
    lookup_map_name AttractorParam.default cfg.params hnd p hp
  simp only [outOfRange, hl, Option.map_some', Option.getD_some, Bool.or_eq_true,
    decide_eq_true_eq]
  push_neg
  exact ⟨(hrange p hp).1, (hrange p hp).2⟩

lemma find?_unknownName_defaults (cfg : AttractorConfig) :
    (get_default_params cfg).find? (unknownName cfg) = none := by
  apply List.find?_eq_none.mpr
  intro nv hnv
  simp only [get_default_params, List.mem_map] at hnv
  obtain ⟨q, hq, rfl⟩ := hnv
  simp only [unknownName, Bool.not_eq_true', Bool.not_eq_false, List.any_eq_true]
  exact ⟨q, hq, by simp⟩

/-- Claim C5: resolution fills in defaults — a successful resolution maps
each schema parameter to its override when present and to `spec.default`
otherwise, and resolving with the defaults as overrides equals resolving
with no overrides. -/
theorem resolve_fills_defaults (cfg : AttractorConfig)
    (overrides : List (String × ℚ))
    (hnd : (cfg.params.map AttractorParam.name).Nodup)
    (hrange : ∀ p ∈ cfg.params, p.min_val ≤ p.default ∧ p.default ≤ p.max_val) :
    (∀ res, resolve cfg overrides = Except.ok res →
      res = cfg.params.map fun p =>
        (p.name, (overrides.lookup p.name).getD p.default)) ∧
    resolve cfg (get_default_params cfg) = resolve cfg [] := by
  constructor
  · intro res h
    rw [resolve] at h
    split at h
    · exact absurd h (by simp)
    · split at h
      · exact absurd h (by simp)
      · exact (Except.ok.inj h).symm
  · have hL : resolve cfg (get_default_params cfg) =
        Except.ok (cfg.params.map fun p =>
          (p.name, ((get_default_params cfg).lookup p.name).getD p.default)) := by
      rw [resolve, find?_outOfRange_defaults cfg hnd hrange,
        find?_unknownName_defaults cfg]
    rw [hL, resolve_nil]
    simp only [get_default_params]
    congr 1
    apply List.map_congr_left
    intro p hp
    rw [lookup_map_name AttractorParam.default cfg.params hnd p hp]
    rfl

/-- Witness for C5 at the Lorenz definition: overriding only `rho` keeps
the other defaults, and resolving with the defaults equals resolving with
no overrides. -/
theorem resolve_fills_defaults_witness :
    ([("sigma", (10 : ℚ)), ("rho", 30), ("beta", mkRat 267 100)] =
      lorenz_attractor.params.map fun p =>
        (p.name, (List.lookup p.name [("rho", (30 : ℚ))]).getD p.default)) ∧
    resolve lorenz_attractor (get_default_params lorenz_attractor) =
      resolve lorenz_attractor [] :=
  ⟨(resolve_fills_defaults lorenz_attractor [("rho", 30)] (by decide)
      (by decide)).1 _ rfl,
   (resolve_fills_defaults lorenz_attractor [] (by decide) (by decide)).2⟩

/-- Claim C6: `ParameterRangeError` is raised iff some supplied override
lies strictly outside that parameter's inclusive `[min, max]` bounds, and
an override mapping whose names are all in the schema and whose values are
within the closed bounds (boundaries included) is accepted. -/
theorem rangeError_iff (defn : AttractorConfig) (overrides : List (String × ℚ)) :
    ((∃ nm v, resolve defn overrides =
        Except.error (ParameterError.rangeError nm v)) ↔
      ∃ p ∈ defn.params, ∃ v, overrides.lookup p.name = some v ∧
        (v < p.min_val ∨ p.max_val < v)) ∧
    ((∀ nv ∈ overrides, (defn.params.any fun p => p.name == nv.1) = true) →
      (∀ nv ∈ overrides, ∀ p ∈ defn.params, p.name = nv.1 →
        p.min_val ≤ nv.2 ∧ nv.2 ≤ p.max_val) →
      ∃ res, resolve defn overrides = Except.ok res) := by
  constructor
  · constructor
    · rintro ⟨nm, v, h⟩
      cases hfind : defn.params.find? (outOfRange overrides) with
      | none =>
        rw [resolve, hfind] at h
        cases hfind2 : overrides.find? (unknownName defn) with
        | none => rw [hfind2] at h; exact absurd h (by simp)
        | some nv => rw [hfind2] at h; exact absurd h (by simp)
      | some p =>
        have hp := List.find?_some hfind
        have hmem := List.mem_of_find?_eq_some hfind
        obtain ⟨w, hw, hout⟩ := (outOfRange_iff overrides p).mp hp
        exact ⟨p, hmem, w, hw, hout⟩
    · rintro ⟨p, hmem, v, hv, hout⟩
      cases hfind : defn.params.find? (outOfRange overrides) with
      | none =>
        have := List.find?_eq_none.mp hfind p hmem
        exact absurd ((outOfRange_iff overrides p).mpr ⟨v, hv, hout⟩)
          (by simpa using this)
      | some q =>
        rw [resolve, hfind]
        exact ⟨q.name, (overrides.lookup q.name).getD q.default, rfl⟩
  · intro h1 h2
    have hf1 : defn.params.find? (outOfRange overrides) = none := by
      apply List.find?_eq_none.mpr
      intro p hp hcon
      obtain ⟨v, hv, hout⟩ := (outOfRange_iff overrides p).mp hcon
      have hmemov : (p.name, v) ∈ overrides := mem_of_lookup_eq_some hv
      have hb := h2 (p.name, v) hmemov p hp rfl
      rcases hout with h | h
      · exact absurd hb.1 (not_le.mpr h)
      · exact absurd hb.2 (not_le.mpr h)
    have hf2 : overrides.find? (unknownName defn) = none := by
      apply List.find?_eq_none.mpr
      intro nv hnv
      simp only [unknownName, Bool.not_eq_true', Bool.not_eq_false]
      exact h1 nv hnv
    rw [resolve, hf1, hf2]
    exact ⟨_, rfl⟩

/-- Witness for C6: the Rossler override `c = 100` against bounds `[0, 20]`
fails with `ParameterRangeError`, while the boundary override `c = 20` is
accepted. -/
theorem rangeError_iff_witness :
    (∃ nm v, resolve rossler_attractor [("c", 100)] =
      Except.error (ParameterError.rangeError nm v)) ∧
    ∃ res, resolve rossler_attractor [("c", 20)] = Except.ok res :=
  ⟨(rangeError_iff rossler_attractor [("c", 100)]).1.mpr
     ⟨⟨"c", mkRat 57 10, 0, 20, mkRat 1 100⟩, by decide, 100, by decide,
      Or.inr (by decide)⟩,
   (rangeError_iff rossler_attractor [("c", 20)]).2 (by decide) (by decide)⟩

lemma length_linspace (a b : ℚ) (n : ℕ) : (linspace a b n).length = n := by
  rw [linspace, List.length_map, List.length_range]

lemma length_odeintGo (f : State → ℚ → List ℚ → State) (args : List ℚ)
    (rest : List ℚ) : ∀ (y : State) (t0 : ℚ),
    (odeintGo f args y t0 rest).length = rest.length + 1 := by
  induction rest with
  | nil => intro y t0; rfl
  | cons t1 ts ih => intro y t0; simp [odeintGo, ih]

/-- The solver model honours the contract: one state per grid point. -/
lemma length_odeint (f : State → ℚ → List ℚ → State) (y0 : State)
    (t : List ℚ) (args : List ℚ) : (odeint f y0 t args).length = t.length := by
  cases t with
  | nil => rfl
  | cons t0 rest => simp [odeint, length_odeintGo]

lemma lookupArgs_isSome (ps : List AttractorParam) (pv : List (String × ℚ))
    (h : ∀ p ∈ ps, (pv.lookup p.name).isSome) :
    ∃ args, lookupArgs ps pv = some args := by
  induction ps with
  | nil => exact ⟨[], rfl⟩
  | cons p rest ih =>
    obtain ⟨v, hv⟩ := Option.isSome_iff_exists.mp (h p (List.mem_cons_self p rest))
    obtain ⟨args, hargs⟩ := ih fun q hq => h q (List.mem_cons_of_mem p hq)
    exact ⟨v :: args, by simp [lookupArgs, hv, hargs]⟩

/-- Claim C1: for every built-in attractor definition, simulating with
empty overrides succeeds and the trajectory length equals the definition's
sample count `n`, which is 10000 for all three built-ins. -/
theorem simulate_empty_overrides (cfg : AttractorConfig)
    (hcfg : cfg ∈ [lorenz_attractor, rossler_attractor, dadras_attractor]) :
    ∃ tr, simulate cfg [] = Except.ok (some tr) ∧
      tr.length = cfg.n ∧ cfg.n = 10000 := by
  have hn : cfg.n = 10000 := by
    simp only [List.mem_cons, List.not_mem_nil, or_false] at hcfg
    rcases hcfg with rfl | rfl | rfl <;> rfl
  obtain ⟨args, hargs⟩ :=
    lookupArgs_isSome cfg.params (cfg.params.map fun p => (p.name, p.default))
      (fun p hp => lookup_map_name_isSome AttractorParam.default cfg.params p hp)
  refine ⟨odeint cfg.equation cfg.initial_conditions
    (linspace cfg.t_min cfg.t_max cfg.n) args, ?_, ?_, hn⟩
  · rw [simulate, resolve_nil]
    show Except.ok (solve_attractor cfg (cfg.params.map fun p => (p.name, p.default))) = _
    rw [solve_attractor, hargs]
    rfl
  · rw [length_odeint, length_linspace]

/-- Witness for C1 at the Lorenz entry. -/
theorem simulate_empty_overrides_witness :
    ∃ tr, simulate lorenz_attractor [] = Except.ok (some tr) ∧
      tr.length = lorenz_attractor.n ∧ lorenz_attractor.n = 10000 :=
  simulate_empty_overrides lorenz_attractor (List.mem_cons_self _ _)

/-- Claim C8: the density field has exactly one scalar per trajectory
sample (same length and order as the input), while the kernel density model
is fitted on a uniform-without-replacement subsample of the `(x, y)`
projection of size `min max_sample_size traj.length` — the subsample only
affects the fit, never the evaluation domain. -/
theorem estimate_density_length (kernel : (ℚ × ℚ) → (ℚ × ℚ) → ℚ)
    (indices : List ℕ) (traj : List State) (max_sample_size : ℕ)
    (hlen : indices.length = min max_sample_size traj.length)
    (hnd : indices.Nodup) (hbound : ∀ i ∈ indices, i < traj.length) :
    (estimate_density kernel indices traj).length = traj.length ∧
    (density_fit_sample indices traj).length = min max_sample_size traj.length := by
  constructor
  · simp [estimate_density, kde_eval, project_xy]
  · simp [density_fit_sample, hlen]

/-- Witness for C8 on a length-3 trajectory with the subsample drawn at
indices 0 and 2 and `max_sample_size = 2`. -/
theorem estimate_density_length_witness :
    (estimate_density (fun _ _ => 0) [0, 2]
      [((1 : ℚ), (2 : ℚ), (3 : ℚ)), (4, 5, 6), (7, 8, 9)]).length =
      ([((1 : ℚ), (2 : ℚ), (3 : ℚ)), (4, 5, 6), (7, 8, 9)] : List State).length ∧
    (density_fit_sample [0, 2]
      [((1 : ℚ), (2 : ℚ), (3 : ℚ)), (4, 5, 6), (7, 8, 9)]).length =
      min 2 ([((1 : ℚ), (2 : ℚ), (3 : ℚ)), (4, 5, 6), (7, 8, 9)] : List State).length :=
  estimate_density_length (fun _ _ => 0) [0, 2] _ 2 (by decide) (by decide)
    (by decide)

end Attractors
